import Mathlib

/-!
Verification of the natural-language specification of the eye-spy
repository against a shallow embedding of its Rust sources.

Conventions of the embedding:
* Bytes are modelled as `Nat` (a `u8` value is a `Nat < 256`); byte strings
  are `List Nat`.
* Machine-integer arithmetic that can wrap is made explicit (`% 2 ^ 32`,
  via `Int.emod` for subtraction, matching release-mode wrapping).
* A Rust function that can panic (`unwrap`, `expect`, `todo!`, slice index
  out of bounds, `transmute` to an invalid enum discriminant) is embedded
  as an `Option`-returning function; `none` means the call does not return
  normally.
-/

namespace EyeSpy

/-- Little-endian decoding of a byte list, as in `u16::from_le_bytes` /
`u32::from_le_bytes` (source uses exact-width arrays; callers pass lists of
the right length). -/
def leDecode (l : List Nat) : Nat :=
  l.foldr (fun b acc => b + 256 * acc) 0

/-- Little-endian encoding of `x` into `n` bytes, as in `to_le_bytes`. -/
def leBytes : Nat → Nat → List Nat
  | 0, _ => []
  | n + 1, x => x % 256 :: leBytes n (x / 256)

/-! ## Message codec, from `src/scp-client/src/scp.rs` -/

namespace Scp

/-- `SCP_HEADER`: the bytes of `b"12345654321\n"`. -/
def SCP_HEADER : List Nat := [49, 50, 51, 52, 53, 54, 53, 52, 51, 50, 49, 10]

/-- `SCP_END`: the bytes of `b"1234564321\n"`. -/
def SCP_END : List Nat := [49, 50, 51, 52, 53, 54, 52, 51, 50, 49, 10]

/-- `SCPCommand` from `src/scp-client/src/scp.rs` (a `repr(u16)` enum,
discriminants 0..10 in order of definition). -/
inductive SCPCommand where
  | Start
  | OwnKeyRequired
  | ReqGenerateKey
  | AckGenerateKey
  | KeyShare
  | SimpleMessage
  | VideoStreamConnect
  | AudioStreamConnect
  | VideoStreamStop
  | AudioStreamStop
  | End
  deriving DecidableEq, Repr

/-- The `u16` discriminant of a command (`self.command as u16`). -/
def SCPCommand.code : SCPCommand → Nat
  | .Start => 0
  | .OwnKeyRequired => 1
  | .ReqGenerateKey => 2
  | .AckGenerateKey => 3
  | .KeyShare => 4
  | .SimpleMessage => 5
  | .VideoStreamConnect => 6
  | .AudioStreamConnect => 7
  | .VideoStreamStop => 8
  | .AudioStreamStop => 9
  | .End => 10

/-- Inverse of the discriminant map: the effect of
`transmute::<[u8; 2], SCPCommand>` on a little-endian value. `none` models
the undefined behaviour of transmuting an out-of-range discriminant. -/
def SCPCommand.ofCode : Nat → Option SCPCommand
  | 0 => some .Start
  | 1 => some .OwnKeyRequired
  | 2 => some .ReqGenerateKey
  | 3 => some .AckGenerateKey
  | 4 => some .KeyShare
  | 5 => some .SimpleMessage
  | 6 => some .VideoStreamConnect
  | 7 => some .AudioStreamConnect
  | 8 => some .VideoStreamStop
  | 9 => some .AudioStreamStop
  | 10 => some .End
  | _ => none

/-- `SCPCommand::requires_body`. -/
def SCPCommand.requiresBody : SCPCommand → Bool
  | .KeyShare => true
  | .SimpleMessage => true
  | _ => false

/-- `SCPMessage`: `{command, body}`. -/
structure SCPMessage where
  command : SCPCommand
  body : List Nat
  deriving DecidableEq, Repr

/-- `SCPParseError` from `src/scp-client/src/scp.rs`. -/
inductive SCPParseError where
  | BadStructure
  | MissingBody
  | MissingCommand
  | MissingEnd
  deriving DecidableEq, Repr

/-- `SCPMessage::as_bytes`:
`HEADER ++ (command as u16).to_le_bytes() ++ body ++ b"\n" ++ END`. -/
def asBytes (command : SCPCommand) (body : List Nat) : List Nat :=
  SCP_HEADER ++ leBytes 2 command.code ++ body ++ [10] ++ SCP_END

/-- `SCPMessage::deserialize`. The outer `Option` models panics and
undefined behaviour: `none` when the unchecked `transmute` receives an
out-of-range discriminant, or when `raw.len() - H_LEN` underflows and the
subsequent `split_at` panics. -/
def deserialize (raw : List Nat) : Option (Except SCPParseError SCPMessage) :=
  if ¬ SCP_HEADER.isPrefixOf raw then some (.error .BadStructure)
  else if ¬ SCP_END.isSuffixOf raw then some (.error .MissingEnd)
  else
    let r := raw.drop SCP_HEADER.length
    if r.length < 2 then some (.error .MissingCommand)
    else
      match SCPCommand.ofCode (leDecode (r.take 2)) with
      | none => none
      | some command =>
        let rest := r.drop 2
        if rest.length < SCP_HEADER.length then none
        else
          let body := rest.take (rest.length - SCP_HEADER.length)
          let endPart := rest.drop (rest.length - SCP_HEADER.length)
          if endPart.drop 1 ≠ SCP_END then some (.error .BadStructure)
          else if command.requiresBody ∧ body = [] then some (.error .MissingBody)
          else some (.ok ⟨command, body⟩)

end Scp

/-! ## NAL reassembler, from `src/h264_stream.rs` (`mod incoming`) -/

namespace Nal

/-- `FRAME_END`: the bytes of `b"11111111111"` (eleven ASCII ones). -/
def FRAME_END : List Nat := List.replicate 11 49

/-- `PACKET_DATA_SIZE` (504 data bytes per UDP fragment). -/
def PACKET_DATA_SIZE : Nat := 504

/-- Wrap an integer to `u32`, the value of a wrapping `u32` computation. -/
def u32wrap (z : Int) : Nat := (z % 4294967296).toNat

/-- `NalBuilder`: `{finished, failed, nal_unit_buffer[65535], last_packet,
end_idx, last_idx}`. The buffer is a 65,535-element list. -/
structure NalBuilder where
  finished : Bool
  failed : Bool
  nalUnitBuffer : List Nat
  lastPacket : Nat
  endIdx : Nat
  lastIdx : Nat
  deriving Repr

/-- `NalBuilder::default` / `NalBuilder::new`. -/
def NalBuilder.init : NalBuilder :=
  { finished := false, failed := false,
    nalUnitBuffer := List.replicate 65535 0,
    lastPacket := 0, endIdx := 0, lastIdx := 0 }

/-- `NalBuilder::reset`: clears everything except the buffer contents. -/
def NalBuilder.reset (b : NalBuilder) : NalBuilder :=
  { b with finished := false, failed := false,
           lastPacket := 0, endIdx := 0, lastIdx := 0 }

/-- `NalBuilder::get_nal_unit`: `buffer[0..end_idx]` iff
`finished && !failed`. -/
def NalBuilder.getNalUnit (b : NalBuilder) : Option (List Nat) :=
  if b.finished ∧ ¬ b.failed then some (b.nalUnitBuffer.take b.endIdx)
  else none

/-- `NalBuilder::decode_frame`: for an input longer than 4 bytes, split the
trailing 4 bytes off as the little-endian `u32` identifier. -/
def decodeFrame (data : List Nat) : Option (List Nat × Nat) :=
  if data.length > 4 then
    some (data.take (data.length - 4), leDecode (data.drop (data.length - 4)))
  else none

/-- `NalBuilder::add_data`. `none` models the panic of the copy loop when
`self.last_idx` runs past the end of the 65,535-byte buffer
(`self.nal_unit_buffer[self.last_idx] = *byte` with `last_idx ≥ 65535`).
The `missing_packets` subtraction `ident - 1 - self.last_packet` is `u32`
arithmetic, embedded as wrapping (`u32wrap`). -/
def NalBuilder.addData (b : NalBuilder) (buf : List Nat) : Option NalBuilder :=
  if FRAME_END.isPrefixOf buf ∧ buf.length = 11 then
    some { b with finished := true }
  else
    match decodeFrame buf with
    | none => some b
    | some (data, ident) =>
      let b := if b.finished ∨ ident ≤ b.lastPacket then b.reset else b
      if b.failed then some b
      else
        let missingPackets := u32wrap ((ident : Int) - 1 - (b.lastPacket : Int))
        if missingPackets > 0 then some { b with failed := true }
        else if b.lastIdx + data.length ≤ 65535 then
          some { b with
            lastPacket := ident,
            nalUnitBuffer :=
              b.nalUnitBuffer.take b.lastIdx ++ data
                ++ b.nalUnitBuffer.drop (b.lastIdx + data.length),
            lastIdx := b.lastIdx + data.length,
            endIdx := b.endIdx + data.length }
        else none

/-- Feed a list of datagrams to the builder in order, propagating a panic. -/
def NalBuilder.addDataList (b : NalBuilder) (bufs : List (List Nat)) :
    Option NalBuilder :=
  bufs.foldl (fun ob buf => ob.bind (fun b => b.addData buf)) (some b)

/-- The sender-side framing of one fragment: `data ++ ident(LE u32)`,
as built in `init_h264_video_stream` (`packet_with_ident`). -/
def mkFragment (data : List Nat) (ident : Nat) : List Nat :=
  data ++ leBytes 4 ident

/-- Total length of a list of data blocks. -/
def sumLen (ds : List (List Nat)) : Nat := (ds.map List.length).sum

/-- Data length of one received datagram (`decode_frame` strips 4 bytes;
a datagram of at most 4 bytes carries none). -/
def dataLen (f : List Nat) : Nat := if f.length > 4 then f.length - 4 else 0

/-- Total data length of a datagram sequence. -/
def sumDataLen (fs : List (List Nat)) : Nat := (fs.map dataLen).sum

/-- Fragments for the data blocks `ds`, with identifiers `i, i+1, …`. -/
def mkFragments : List (List Nat) → Nat → List (List Nat)
  | [], _ => []
  | d :: ds, i => mkFragment d i :: mkFragments ds (i + 1)

end Nal

/-! ## Incoming-stream liveness check, from `src/h264_stream.rs`
(`init_incoming_h264_stream`) -/

namespace Incoming

/-- `Instant::duration_since` in milliseconds: the elapsed time from
`earlier` to `self`, saturating to zero when `earlier` is later
(`Nat` subtraction is exactly this saturation). -/
def durationSince (self earlier : Nat) : Nat := self - earlier

/-- `CONNECTION_TIMEOUT` in milliseconds. -/
def CONNECTION_TIMEOUT : Nat := 5000

/-- The `recv`-timeout branch of the incoming worker loop: on a failed
`recv`, the code evaluates
`last_packet.duration_since(Instant::now()) > CONNECTION_TIMEOUT` and
stores `false` into `conn_status` when it holds; otherwise the flag is
unchanged. Returns the new value of `conn_status` (`connected`). -/
def recvTimeoutStep (connected : Bool) (lastPacket now : Nat) : Bool :=
  if durationSince lastPacket now > CONNECTION_TIMEOUT then false
  else connected

end Incoming

/-- A socket address: IP and port (`std::net::SocketAddr`), with the IP
abstracted to a number. -/
structure SockAddr where
  ip : Nat
  port : Nat
  deriving DecidableEq, Repr

/-! ## SCP listener state machine, from `src/scp-client/src/scp_listener.rs`

The listener imports an `ScpCommand` enum with `PreferencesShare` and
`Ready` variants; the `scp` module defining that enum is not part of the
sources, so its command table and parse function are modelled from the
spec (§6), while every handler below is embedded from
`scp_listener.rs` itself. -/

namespace Listener

/-- Modelled from the spec: the command enum used by `scp_listener.rs`
(`crate::scp::ScpCommand`, absent from the sources): codes in order of
definition `Start=0, OwnKeyRequired=1, ReqGenerateKey=2, AckGenerateKey=3,
KeyShare=4, PreferencesShare=5, Ready=6, SimpleMessage=7, End=8`. -/
inductive LCommand where
  | Start
  | OwnKeyRequired
  | ReqGenerateKey
  | AckGenerateKey
  | KeyShare
  | PreferencesShare
  | Ready
  | SimpleMessage
  | End
  deriving DecidableEq, Repr

/-- Modelled from the spec: command codes (LE u16 in order of definition). -/
def LCommand.ofCode : Nat → Option LCommand
  | 0 => some .Start
  | 1 => some .OwnKeyRequired
  | 2 => some .ReqGenerateKey
  | 3 => some .AckGenerateKey
  | 4 => some .KeyShare
  | 5 => some .PreferencesShare
  | 6 => some .Ready
  | 7 => some .SimpleMessage
  | 8 => some .End
  | _ => none

/-- Modelled from the spec: the requires-body commands are `Start`,
`KeyShare`, `PreferencesShare`, `SimpleMessage`. -/
def LCommand.requiresBody : LCommand → Bool
  | .Start => true
  | .KeyShare => true
  | .PreferencesShare => true
  | .SimpleMessage => true
  | _ => false

/-- Modelled from the spec: `parse(bytes) → message | error` for the
codec variant of the listener (§4.1, §6): wire form
`HEADER ++ cmd(LE u16) ++ body ++ 0x0A ++ END`; a missing header or an
out-of-range command index fails with `BadStructure`, a missing trailer
with `MissingEnd`, fewer than 2 bytes after the header with
`MissingCommand`, an empty body for a requires-body command with
`MissingBody`. -/
def parse (raw : List Nat) :
    Except Scp.SCPParseError (LCommand × List Nat) :=
  if ¬ Scp.SCP_HEADER.isPrefixOf raw then .error .BadStructure
  else if ¬ Scp.SCP_END.isSuffixOf raw then .error .MissingEnd
  else
    let r := raw.drop Scp.SCP_HEADER.length
    if r.length < 2 then .error .MissingCommand
    else
      match LCommand.ofCode (leDecode (r.take 2)) with
      | none => .error .BadStructure
      | some c =>
        let rest := r.drop 2
        if rest.length < Scp.SCP_HEADER.length then .error .BadStructure
        else
          let body := rest.take (rest.length - Scp.SCP_HEADER.length)
          if c.requiresBody ∧ body = [] then .error .MissingBody
          else .ok (c, body)

/-- `VideoEncoding` from `src/scp-client/src/client.rs`. -/
inductive VideoEncoding where
  | H264
  deriving DecidableEq, Repr

/-- `AudioEncoding` from `src/scp-client/src/client.rs`. -/
inductive AudioEncoding where
  | NoIdea
  deriving DecidableEq, Repr

/-- `Preferences` from `src/scp-client/src/client.rs`. -/
structure Preferences where
  videoEncoding : VideoEncoding
  audioEncoding : AudioEncoding
  portInVideo : Nat
  portInAudio : Nat
  portScp : Nat
  deriving DecidableEq, Repr

/-- `Preferences::default()`. -/
def Preferences.default : Preferences :=
  { videoEncoding := .H264, audioEncoding := .NoIdea,
    portInVideo := 7000, portInAudio := 7001, portScp := 60201 }

/-- The `SessionConfig` constructed by `ScpListener::finalize_connection`:
`{encryption_key, encrytpion_method, ip, stream_config}`. -/
structure SessionConfig where
  encryptionKey : Option (List Nat)
  encryptionMethod : Option Bool
  ip : Nat
  streamConfig : Preferences
  deriving DecidableEq, Repr

/-- `ScpConnectionError` as used by the listener (includes
`AlreadyConnected`). -/
inductive ScpConnectionError where
  | NotResponding
  | Busy
  | Refused
  | PasswordRequired
  | AlreadyConnected
  deriving DecidableEq, Repr

/-- `ConnectionEvent` as published by the listener. -/
inductive ConnectionEvent where
  | ConnectionEstablished (cfg : SessionConfig)
  | ConnectionFailed (e : ScpConnectionError)
  | ConnectionIncoming (ip : Nat)
  | ConnectionEnd
  deriving DecidableEq, Repr

/-- `ConnectionState` from `src/scp-client/src/scp_listener.rs`. -/
inductive ConnectionState where
  | Free
  | Handshake
  | ConfigShared
  | Awaiting
  | Connected
  deriving DecidableEq, Repr

/-- The mutable fields of `ScpListener` relevant to message handling. -/
structure ScpListener where
  state : ConnectionState
  communicatingWith : Option SockAddr
  gotPreferences : Option Preferences
  preferences : Preferences
  deriving DecidableEq, Repr

/-- A freshly constructed listener (`ScpListener::new`): state `Free`,
no peer, no obtained preferences. -/
def ScpListener.init : ScpListener :=
  { state := .Free, communicatingWith := none, gotPreferences := none,
    preferences := Preferences.default }

/-- One SCP message written to a TCP peer. -/
structure SentMessage where
  dst : SockAddr
  command : LCommand
  body : List Nat
  deriving DecidableEq, Repr

/-- Observable effects of one handler call: the value stored into the
event slot (if any) and the messages written out. -/
structure Output where
  event : Option ConnectionEvent := none
  sent : List SentMessage := []
  deriving DecidableEq, Repr

/-- The body of the `End` frame sent to a third party while busy
(the 16-byte busy literal in `handle_connection`). -/
def busyBody : List Nat :=
  [73, 39, 109, 121, 32, 98, 117, 115, 121, 32, 109, 121, 32, 109, 97, 110]

/-- `ScpListener::end_connection`: if a peer is recorded, dial it and send
`End` (a failed dial is ignored; the model assumes the dial succeeds).
State, peer and preferences are left untouched. -/
def endConnection (l : ScpListener) (out : Output) : ScpListener × Output :=
  match l.communicatingWith with
  | some a => (l, { out with sent := out.sent ++ [⟨a, .End, []⟩] })
  | none => (l, out)

/-- `ScpListener::notify_end_connection`: publish `ConnectionEnd`, clear
the peer record and the obtained preferences. The connection state field
is not modified. -/
def notifyEndConnection (l : ScpListener) (out : Output) : ScpListener × Output :=
  ({ l with communicatingWith := none, gotPreferences := none },
   { out with event := some .ConnectionEnd })

/-- `ScpListener::share_config`: when a peer is recorded, serialize own
preferences (`encodePrefs`; `none` models a serde error, after which
`t.unwrap()` panics), send them as `PreferencesShare`, and set the state
to `ConfigShared`. `ScpMessage::new` panics on an empty body for
`PreferencesShare`. -/
def shareConfig (encodePrefs : Preferences → Option (List Nat))
    (l : ScpListener) (out : Output) : Option (ScpListener × Output) :=
  match l.communicatingWith with
  | none => some (l, out)
  | some addr =>
    match encodePrefs l.preferences with
    | none => none
    | some t =>
      if t = [] then none
      else
        some ({ l with state := .ConfigShared },
              { out with sent := out.sent ++ [⟨addr, .PreferencesShare, t⟩] })

/-- `ScpListener::finalize_connection`: construct the `SessionConfig` from
the recorded peer and obtained preferences (`expect` panics when either is
absent), publish `ConnectionEstablished`, move to `Connected`. -/
def finalizeConnection (l : ScpListener) (out : Output) :
    Option (ScpListener × Output) :=
  match l.communicatingWith, l.gotPreferences with
  | some a, some p =>
    some ({ l with state := .Connected },
          { out with event := some (.ConnectionEstablished
              ⟨none, none, a.ip, p⟩) })
  | _, _ => none

/-- `ScpListener::init_connection` (received `Start`): when not `Free`,
first send `End` to the recorded peer; then, if the body has at least two
bytes, record the peer as `(incoming ip, port from body)`, share own
config and set the state to `ConfigShared`. -/
def initConnection (encodePrefs : Preferences → Option (List Nat))
    (l : ScpListener) (out : Output) (body : List Nat) (addrIn : SockAddr) :
    Option (ScpListener × Output) :=
  let (l, out) := if l.state ≠ .Free then endConnection l out else (l, out)
  if body.length ≥ 2 then
    let port := leDecode (body.take 2)
    let l := { l with communicatingWith := some ⟨addrIn.ip, port⟩ }
    match shareConfig encodePrefs l out with
    | none => none
    | some (l, out) => some ({ l with state := .ConfigShared }, out)
  else some (l, out)

/-- `ScpListener::on_preferences_share`: decode the peer preferences
(`decodePrefs` models the serde-json decode); on success store them and
act by state (`Handshake`: share own config; `ConfigShared`: send `Ready`
to the recorded peer — `unwrap` panics when there is none — and move to
`Awaiting`; `Awaiting`: finalize); on a decode error send `End` to the
recorded peer. -/
def onPreferencesShare (encodePrefs : Preferences → Option (List Nat))
    (decodePrefs : List Nat → Option Preferences)
    (l : ScpListener) (out : Output) (body : List Nat) :
    Option (ScpListener × Output) :=
  match decodePrefs body with
  | some p =>
    let l := { l with gotPreferences := some p }
    match l.state with
    | .Handshake => shareConfig encodePrefs l out
    | .ConfigShared =>
      match l.communicatingWith with
      | none => none
      | some a =>
        some ({ l with state := .Awaiting },
              { out with sent := out.sent ++ [⟨a, .Ready, []⟩] })
    | .Awaiting => finalizeConnection l out
    | _ => some (l, out)
  | none => some (endConnection l out)

/-- `ScpListener::handle_scp_message`: dispatch one parsed message.
`OwnKeyRequired`, `ReqGenerateKey`, `AckGenerateKey`, `KeyShare` and
`SimpleMessage` hit `todo!()` and panic (`none`). -/
def handleScpMessage (encodePrefs : Preferences → Option (List Nat))
    (decodePrefs : List Nat → Option Preferences)
    (l : ScpListener) (command : LCommand) (body : List Nat)
    (addrIn : SockAddr) : Option (ScpListener × Output) :=
  match command with
  | .Start => initConnection encodePrefs l {} body addrIn
  | .OwnKeyRequired => none
  | .ReqGenerateKey => none
  | .AckGenerateKey => none
  | .KeyShare => none
  | .SimpleMessage => none
  | .PreferencesShare => onPreferencesShare encodePrefs decodePrefs l {} body
  | .Ready => finalizeConnection l {}
  | .End => some (notifyEndConnection l {})

/-- `ScpListener::handle_connection`: `incoming` is the result of the
non-blocking `accept` together with the payload read from the stream
(`none` when no connection is pending). A third-party connection while
busy is answered with `End`; an empty read is skipped; then the payload is
parsed with `ScpMessage::deserialize(..).unwrap()` — a parse error makes
the `unwrap` panic (`none`). -/
def handleConnection (encodePrefs : Preferences → Option (List Nat))
    (decodePrefs : List Nat → Option Preferences)
    (l : ScpListener) (incoming : Option (List Nat × SockAddr)) :
    Option (ScpListener × Output) :=
  match incoming with
  | none => some (l, {})
  | some (payload, addrIn) =>
    if l.state ≠ .Free ∧
        (match l.communicatingWith with
         | some sa => sa.ip != addrIn.ip
         | none => false) = true then
      some (l, { sent := [⟨addrIn, .End, busyBody⟩] })
    else if payload.length = 0 then some (l, {})
    else
      match parse payload with
      | .error _ => none
      | .ok (c, body) => handleScpMessage encodePrefs decodePrefs l c body addrIn

end Listener

/-! ## Client facade, from `src/scp-client/src/client.rs` -/

namespace Client

/-- `ScpConnectionError` from `src/scp-client/src/client.rs`. -/
inductive ScpConnectionError where
  | NotResponding
  | Busy
  | Refused
  | PasswordRequired
  deriving DecidableEq, Repr

/-- `SessionConfig` from `src/scp-client/src/client.rs`. -/
structure SessionConfig where
  encryptionKey : Option (List Nat)
  encryptionMethod : Option Bool
  ip : Nat
  portVideo : Option Nat
  portAudio : Option Nat
  videoEncoding : Listener.VideoEncoding
  audioEncoding : Listener.AudioEncoding
  deriving DecidableEq, Repr

/-- `ConnectionEvent` from `src/scp-client/src/client.rs`. -/
inductive ConnectionEvent where
  | ConnectionEstablished (cfg : SessionConfig)
  | ConnectionFailed (e : ScpConnectionError)
  | ConnectionIncoming (ip : Nat)
  | ConnectionEnd
  deriving DecidableEq, Repr

/-- `ConnectionSetings` from `src/scp-client/src/client.rs`. -/
structure ConnectionSetings where
  destination : SockAddr
  password : Option (List Nat)
  deriving DecidableEq, Repr

/-- `ConnectionAction` from `src/scp-client/src/client.rs`. -/
inductive ConnectionAction where
  | AttemptConnection (settings : ConnectionSetings)
  | RefuseConnection
  | AcceptConnection
  | SetPassword (p : List Nat)
  | UnsetPassword
  | EndConnection
  | Terminate
  deriving DecidableEq, Repr

/-- The wait loop of `ScpClient::request_chat`: `polls` is the sequence of
values observed in the event slot at the successive loop iterations that
fit in the 5-second window (the loop sleeps 100 ms after an empty poll).
Falling out of the loop returns `Err(Refused)`; `ConnectionIncoming`
breaks out of the loop, which also ends in `Err(Refused)`. -/
def requestChatLoop :
    List (Option ConnectionEvent) → Except ScpConnectionError SessionConfig
  | [] => .error .Refused
  | p :: rest =>
    match p with
    | some (.ConnectionEstablished s) => .ok s
    | some (.ConnectionFailed e) => .error e
    | some .ConnectionEnd => .error .NotResponding
    | some (.ConnectionIncoming _) => .error .Refused
    | none => requestChatLoop rest

/-- `ScpClient::request_chat`: store `AttemptConnection` into the action
slot, then run the bounded wait loop over the observed event-slot values.
Returns the published action and the result of the call. -/
def requestChat (destination : SockAddr)
    (polls : List (Option ConnectionEvent)) :
    ConnectionAction × Except ScpConnectionError SessionConfig :=
  (.AttemptConnection ⟨destination, none⟩, requestChatLoop polls)

end Client

/-! ## Helper lemmas -/

theorem leBytes_length (n x : Nat) : (leBytes n x).length = n := by
  induction n generalizing x with
  | zero => rfl
  | succ n ih => simp [leBytes, ih]

theorem leDecode_leBytes (n x : Nat) : leDecode (leBytes n x) = x % 256 ^ n := by
  induction n generalizing x with
  | zero => simp [leBytes, leDecode, Nat.mod_one]
  | succ n ih =>
    simp only [leBytes, leDecode, List.foldr] at *
    rw [ih (x / 256)]
    have h1 : 256 ^ (n + 1) = 256 * 256 ^ n := by ring
    rw [h1, Nat.mod_mul]

theorem leDecode_leBytes_of_lt {n x : Nat} (h : x < 256 ^ n) :
    leDecode (leBytes n x) = x := by
  rw [leDecode_leBytes, Nat.mod_eq_of_lt h]

theorem scp_header_len : Scp.SCP_HEADER.length = 12 := rfl

theorem code_lt (c : Scp.SCPCommand) : c.code < 256 ^ 2 := by
  cases c <;> decide

theorem ofCode_code (c : Scp.SCPCommand) : Scp.SCPCommand.ofCode c.code = some c := by
  cases c <;> rfl

theorem leBytes_four (i : Nat) :
    leBytes 4 i
      = [i % 256, i / 256 % 256, i / 256 / 256 % 256, i / 256 / 256 / 256 % 256] := rfl

/-- A data fragment whose identifier is below 2 ^ 24 is never the
terminator: its last byte is 0, while the last byte of the terminator
is 49. -/
theorem mkFragment_ne_FRAME_END (d : List Nat) (i : Nat) (hi : i < 16777216) :
    ¬ (Nal.FRAME_END.isPrefixOf (Nal.mkFragment d i) = true ∧
       (Nal.mkFragment d i).length = 11) := by
  rintro ⟨hp, hl⟩
  have hfl : Nal.FRAME_END.length = 11 := by decide
  have heq : Nal.FRAME_END = Nal.mkFragment d i :=
    (List.isPrefixOf_iff_prefix.mp hp).eq_of_length (by rw [hfl, hl])
  have hd7 : d.length = 7 := by
    have hc := congrArg List.length heq
    simp [Nal.mkFragment, hfl, leBytes_length] at hc
    omega
  have hdrop := congrArg (List.drop 7) heq
  rw [Nal.mkFragment, List.drop_left' hd7] at hdrop
  have hfe : List.drop 7 Nal.FRAME_END = [49, 49, 49, 49] := by decide
  rw [hfe, leBytes_four] at hdrop
  have hlast : 49 = i / 256 / 256 / 256 % 256 := by
    simpa using congrArg (fun l => l.getLast? ) hdrop
  have hz : i / 256 / 256 / 256 = 0 := by
    rw [Nat.div_div_eq_div_mul, Nat.div_div_eq_div_mul]
    exact Nat.div_eq_of_lt hi
  omega

/-- Decoding a constructed fragment gives back its data and identifier. -/
theorem decodeFrame_mkFragment (d : List Nat) (i : Nat)
    (hd : 1 ≤ d.length) (hi : i < 4294967296) :
    Nal.decodeFrame (Nal.mkFragment d i) = some (d, i) := by
  have hlen : (Nal.mkFragment d i).length = d.length + 4 := by
    simp [Nal.mkFragment, leBytes_length]
  rw [Nal.decodeFrame, if_pos (by omega)]
  rw [hlen]
  have h4 : d.length + 4 - 4 = d.length := by omega
  rw [h4, Nal.mkFragment, List.take_left, List.drop_left]
  rw [leDecode_leBytes_of_lt (by norm_num [hi] : i < 256 ^ 4)]

/-- Feeding the terminator datagram marks the builder finished and changes
nothing else. -/
theorem addData_FRAME_END (b : Nal.NalBuilder) :
    b.addData Nal.FRAME_END = some { b with finished := true } := by
  rw [Nal.NalBuilder.addData, if_pos (by decide)]

/-- Feeding the next in-sequence fragment appends its data. -/
theorem addData_next (b : Nal.NalBuilder) (d : List Nat) (i : Nat)
    (hfin : b.finished = false) (hfail : b.failed = false)
    (hlast : b.lastPacket + 1 = i) (hi : i < 16777216)
    (hd : 1 ≤ d.length) (hfit : b.lastIdx + d.length ≤ 65535) :
    b.addData (Nal.mkFragment d i) =
      some { b with
        lastPacket := i,
        nalUnitBuffer := b.nalUnitBuffer.take b.lastIdx ++ d
          ++ b.nalUnitBuffer.drop (b.lastIdx + d.length),
        lastIdx := b.lastIdx + d.length,
        endIdx := b.endIdx + d.length } := by
  rw [Nal.NalBuilder.addData, if_neg (mkFragment_ne_FRAME_END d i hi)]
  rw [decodeFrame_mkFragment d i hd (by omega)]
  have hnoreset : (b.finished = true ∨ i ≤ b.lastPacket) = False := by
    simp [hfin]
    omega
  simp only [hnoreset, if_false]
  rw [if_neg (by simp [hfail])]
  have hz : Nal.u32wrap ((i : Int) - 1 - (b.lastPacket : Int)) = 0 := by
    have h0 : ((i : Int) - 1 - (b.lastPacket : Int)) = 0 := by
      omega
    rw [h0]
    rfl
  rw [hz]
  simp only [gt_iff_lt, lt_irrefl, if_false]
  rw [if_pos hfit]

/-- Feeding a fragment that skips at least one identifier sets `failed`. -/
theorem addData_gap (b : Nal.NalBuilder) (d : List Nat) (i : Nat)
    (hfin : b.finished = false) (hfail : b.failed = false)
    (hgap : b.lastPacket + 1 < i) (hi : i < 16777216)
    (hd : 1 ≤ d.length) :
    b.addData (Nal.mkFragment d i) = some { b with failed := true } := by
  rw [Nal.NalBuilder.addData, if_neg (mkFragment_ne_FRAME_END d i hi)]
  rw [decodeFrame_mkFragment d i hd (by omega)]
  have hnoreset : (b.finished = true ∨ i ≤ b.lastPacket) = False := by
    simp [hfin]
    omega
  simp only [hnoreset, if_false]
  rw [if_neg (by simp [hfail])]
  rw [if_pos ?pos]
  case pos =>
    have h0 : ((i : Int) - 1 - (b.lastPacket : Int)) % 4294967296
        = (i : Int) - 1 - (b.lastPacket : Int) := by
      apply Int.emod_eq_of_lt <;> omega
    simp only [Nal.u32wrap, gt_iff_lt, h0]
    omega

theorem sumLen_cons (d : List Nat) (ds : List (List Nat)) :
    Nal.sumLen (d :: ds) = d.length + Nal.sumLen ds := by
  simp [Nal.sumLen]

theorem addDataList_cons (b : Nal.NalBuilder) (f : List Nat)
    (fs : List (List Nat)) :
    b.addDataList (f :: fs) =
      (b.addData f).bind (fun b1 => b1.addDataList fs) := by
  rw [Nal.NalBuilder.addDataList]
  cases h : b.addData f with
  | none =>
    simp only [List.foldl_cons, h, Option.bind]
    induction fs with
    | nil => rfl
    | cons g gs ihg => simp only [List.foldl_cons, Option.bind, ihg]
  | some b1 => simp [List.foldl_cons, h, Nal.NalBuilder.addDataList]

theorem foldl_addData_none (ys : List (List Nat)) :
    List.foldl (fun ob buf => ob.bind (fun b => Nal.NalBuilder.addData b buf))
      none ys = none := by
  induction ys with
  | nil => rfl
  | cons g gs ih =>
    rw [List.foldl_cons]
    exact ih

theorem addDataList_append (b : Nal.NalBuilder) (xs ys : List (List Nat)) :
    b.addDataList (xs ++ ys) =
      (b.addDataList xs).bind (fun b1 => b1.addDataList ys) := by
  rw [Nal.NalBuilder.addDataList, List.foldl_append]
  cases h : b.addDataList xs with
  | none =>
    rw [Nal.NalBuilder.addDataList] at h
    rw [h]
    exact foldl_addData_none ys
  | some b1 =>
    rw [Nal.NalBuilder.addDataList] at h
    rw [h]
    rfl

theorem addDataList_singleton (b : Nal.NalBuilder) (f : List Nat) :
    b.addDataList [f] = b.addData f := by
  rw [addDataList_cons]
  cases h : b.addData f <;> rfl

theorem addDataList_append_single (b : Nal.NalBuilder)
    (xs : List (List Nat)) (t : List Nat) :
    b.addDataList (xs ++ [t]) =
      (b.addDataList xs).bind (fun b1 => b1.addData t) := by
  rw [addDataList_append]
  cases h : b.addDataList xs with
  | none => rfl
  | some b1 =>
    simp only [Option.bind]
    exact addDataList_singleton b1 t

/-- Feeding an in-sequence run of fragments accumulates their data in
order and leaves the builder unfinished and unfailed. -/
theorem addDataList_mkFragments (ds : List (List Nat)) :
    ∀ b : Nal.NalBuilder,
    b.finished = false → b.failed = false →
    (∀ d ∈ ds, 1 ≤ d.length) →
    b.lastPacket + ds.length < 16777216 →
    b.lastIdx + Nal.sumLen ds ≤ 65535 →
    b.nalUnitBuffer.length = 65535 →
    ∃ b', b.addDataList (Nal.mkFragments ds (b.lastPacket + 1)) = some b' ∧
      b'.finished = false ∧ b'.failed = false ∧
      b'.lastPacket = b.lastPacket + ds.length ∧
      b'.endIdx = b.endIdx + Nal.sumLen ds ∧
      b'.lastIdx = b.lastIdx + Nal.sumLen ds ∧
      b'.nalUnitBuffer.length = 65535 ∧
      b'.nalUnitBuffer.take b'.lastIdx
        = b.nalUnitBuffer.take b.lastIdx ++ ds.flatten := by
  induction ds with
  | nil =>
    intro b h1 h2 _ _ _ h6
    refine ⟨b, rfl, h1, h2, ?_, ?_, ?_, h6, ?_⟩ <;>
      simp [Nal.sumLen]
  | cons d ds ih =>
    intro b h1 h2 hlens hident hfit hbuf
    have hd1 : 1 ≤ d.length := hlens d (by simp)
    have hfitd : b.lastIdx + d.length ≤ 65535 := by
      have := sumLen_cons d ds
      omega
    have hstep := addData_next b d (b.lastPacket + 1) h1 h2 rfl
      (by simp at hident; omega) hd1 hfitd
    set b1 : Nal.NalBuilder :=
      { b with
        lastPacket := b.lastPacket + 1,
        nalUnitBuffer := b.nalUnitBuffer.take b.lastIdx ++ d
          ++ b.nalUnitBuffer.drop (b.lastIdx + d.length),
        lastIdx := b.lastIdx + d.length,
        endIdx := b.endIdx + d.length } with hb1
    have hlastIdx_le : b.lastIdx ≤ 65535 := by
      have := sumLen_cons d ds
      omega
    have hAlen : (b.nalUnitBuffer.take b.lastIdx).length = b.lastIdx := by
      rw [List.length_take]
      omega
    have hb1len : b1.nalUnitBuffer.length = 65535 := by
      rw [hb1]
      simp only [List.length_append, List.length_drop, hAlen, hbuf]
      have := sumLen_cons d ds
      omega
    have hb1take : b1.nalUnitBuffer.take b1.lastIdx
        = b.nalUnitBuffer.take b.lastIdx ++ d := by
      rw [hb1]
      simp only []
      rw [show b.nalUnitBuffer.take b.lastIdx ++ d
            ++ b.nalUnitBuffer.drop (b.lastIdx + d.length)
          = (b.nalUnitBuffer.take b.lastIdx ++ d)
            ++ b.nalUnitBuffer.drop (b.lastIdx + d.length) from by
        simp [List.append_assoc]]
      exact List.take_left' (by simp [hAlen])
    obtain ⟨b', hrun, hf1, hf2, hlp, hei, hli, hbl, htk⟩ := ih b1
      h1 h2
      (fun x hx => hlens x (by simp [hx]))
      (by show b.lastPacket + 1 + ds.length < 16777216
          simp only [List.length_cons] at hident
          omega)
      (by show b.lastIdx + d.length + Nal.sumLen ds ≤ 65535
          have hsc := sumLen_cons d ds
          omega)
      hb1len
    refine ⟨b', ?_, hf1, hf2, ?_, ?_, ?_, hbl, ?_⟩
    · rw [Nal.mkFragments, addDataList_cons, hstep]
      exact hrun
    · rw [hlp]
      show b.lastPacket + 1 + ds.length = b.lastPacket + (d :: ds).length
      simp only [List.length_cons]
      omega
    · rw [hei]
      show b.endIdx + d.length + Nal.sumLen ds = b.endIdx + Nal.sumLen (d :: ds)
      rw [sumLen_cons]
      omega
    · rw [hli]
      show b.lastIdx + d.length + Nal.sumLen ds = b.lastIdx + Nal.sumLen (d :: ds)
      rw [sumLen_cons]
      omega
    · rw [htk, hb1take]
      simp [List.append_assoc]

theorem mkFragments_take (ds : List (List Nat)) :
    ∀ i j, (Nal.mkFragments ds i).take j = Nal.mkFragments (ds.take j) i := by
  induction ds with
  | nil => intro i j; simp [Nal.mkFragments]
  | cons d ds ih =>
    intro i j
    cases j with
    | zero => simp [Nal.mkFragments]
    | succ j => simp [Nal.mkFragments, List.take_succ_cons, ih]

theorem sumLen_append (a c : List (List Nat)) :
    Nal.sumLen (a ++ c) = Nal.sumLen a + Nal.sumLen c := by
  simp [Nal.sumLen]

theorem sumLen_take_le (ds : List (List Nat)) (j : Nat) :
    Nal.sumLen (ds.take j) ≤ Nal.sumLen ds := by
  have h := sumLen_append (ds.take j) (ds.drop j)
  rw [List.take_append_drop] at h
  omega

theorem length_le_sumLen (ds : List (List Nat))
    (h : ∀ d ∈ ds, 1 ≤ d.length) : ds.length ≤ Nal.sumLen ds := by
  induction ds with
  | nil => simp [Nal.sumLen]
  | cons d ds ih =>
    have h1 := h d (by simp)
    have h2 := ih (fun x hx => h x (by simp [hx]))
    rw [sumLen_cons]
    simp only [List.length_cons]
    omega

/-- One call to `add_data` returns normally whenever the data it may write
still fits into the buffer. -/
theorem addData_no_panic (b : Nal.NalBuilder) (f : List Nat)
    (h : b.lastIdx + Nal.dataLen f ≤ 65535) :
    ∃ b', b.addData f = some b' ∧ b'.lastIdx ≤ b.lastIdx + Nal.dataLen f := by
  rw [Nal.NalBuilder.addData]
  by_cases hterm : Nal.FRAME_END.isPrefixOf f = true ∧ f.length = 11
  · rw [if_pos hterm]
    exact ⟨_, rfl, Nat.le_add_right _ _⟩
  · rw [if_neg hterm]
    cases hdf : Nal.decodeFrame f with
    | none => exact ⟨b, rfl, Nat.le_add_right _ _⟩
    | some p =>
      obtain ⟨data, ident⟩ := p
      dsimp only
      have hflen : f.length > 4 := by
        by_contra hle
        rw [Nal.decodeFrame, if_neg hle] at hdf
        cases hdf
      have hdata : data.length = Nal.dataLen f := by
        rw [Nal.decodeFrame, if_pos hflen] at hdf
        injection hdf with hpair
        have hd := congrArg Prod.fst hpair
        simp at hd
        rw [← hd, Nal.dataLen, if_pos hflen, List.length_take]
        omega
      set b2 := if b.finished = true ∨ ident ≤ b.lastPacket then b.reset else b
        with hb2
      have hb2le : b2.lastIdx ≤ b.lastIdx := by
        rw [hb2]
        split
        · exact Nat.zero_le _
        · exact le_refl _
      by_cases hfl : b2.failed = true
      · rw [if_pos hfl]
        exact ⟨b2, rfl, by omega⟩
      · rw [if_neg hfl]
        by_cases hmiss :
            Nal.u32wrap ((ident : Int) - 1 - (b2.lastPacket : Int)) > 0
        · rw [if_pos hmiss]
          refine ⟨_, rfl, ?_⟩
          dsimp only
          omega
        · rw [if_neg hmiss]
          rw [if_pos (by omega : b2.lastIdx + data.length ≤ 65535)]
          refine ⟨_, rfl, ?_⟩
          dsimp only
          omega

theorem addDataList_no_panic (fs : List (List Nat)) : ∀ b : Nal.NalBuilder,
    b.lastIdx + Nal.sumDataLen fs ≤ 65535 →
    ∃ b', b.addDataList fs = some b' := by
  induction fs with
  | nil => intro b _; exact ⟨b, rfl⟩
  | cons f fs ih =>
    intro b h
    have hsum : Nal.sumDataLen (f :: fs)
        = Nal.dataLen f + Nal.sumDataLen fs := by
      simp [Nal.sumDataLen]
    obtain ⟨b1, hstep, hle⟩ := addData_no_panic b f (by omega)
    obtain ⟨b', hrun⟩ := ih b1 (by omega)
    refine ⟨b', ?_⟩
    rw [addDataList_cons, hstep]
    exact hrun

theorem requestChatLoop_replicate_none (n : Nat) :
    Client.requestChatLoop (List.replicate n none)
      = Except.error Client.ScpConnectionError.Refused := by
  induction n with
  | zero => rfl
  | succ n ih =>
    rw [List.replicate_succ]
    simp only [Client.requestChatLoop]
    exact ih

theorem requestChatLoop_first_event (n : Nat) (e : Client.ConnectionEvent)
    (rest : List (Option Client.ConnectionEvent)) :
    Client.requestChatLoop (List.replicate n none ++ some e :: rest)
      = match e with
        | .ConnectionEstablished s => Except.ok s
        | .ConnectionFailed err => Except.error err
        | .ConnectionEnd => Except.error Client.ScpConnectionError.NotResponding
        | .ConnectionIncoming _ => Except.error Client.ScpConnectionError.Refused := by
  induction n with
  | zero =>
    rw [List.replicate, List.nil_append]
    cases e <;> rfl
  | succ n ih =>
    rw [List.replicate_succ, List.cons_append]
    simp only [Client.requestChatLoop]
    exact ih

/-! ## Claims -/

/-- C1. Codec round trip: for every command `c` and byte-valued body `b`
that are valid (`b` non-empty when `c` requires a body), deserializing
the serialized message returns the same command and body. -/
theorem C1_codec_roundtrip (c : Scp.SCPCommand) (b : List Nat)
    (hbytes : ∀ x ∈ b, x < 256)
    (hbody : c.requiresBody = true → b ≠ []) :
    Scp.deserialize (Scp.asBytes c b) = some (Except.ok ⟨c, b⟩) := by
  have hb2 : (leBytes 2 c.code).length = 2 := leBytes_length 2 c.code
  have hpre : Scp.SCP_HEADER.isPrefixOf (Scp.asBytes c b) = true := by
    rw [List.isPrefixOf_iff_prefix]
    exact List.prefix_append _ _
  have hsufeq : Scp.asBytes c b
      = (Scp.SCP_HEADER ++ leBytes 2 c.code ++ b ++ [10]) ++ Scp.SCP_END := by
    simp [Scp.asBytes, List.append_assoc]
  have hsuf : Scp.SCP_END.isSuffixOf (Scp.asBytes c b) = true := by
    rw [List.isSuffixOf_iff_suffix, hsufeq]
    exact List.suffix_append _ _
  have hdrop : (Scp.asBytes c b).drop Scp.SCP_HEADER.length
      = leBytes 2 c.code ++ (b ++ ([10] ++ Scp.SCP_END)) := by
    rw [Scp.asBytes]
    simp only [List.append_assoc]
    rw [List.drop_left]
  have htake2 : (leBytes 2 c.code ++ (b ++ ([10] ++ Scp.SCP_END))).take 2
      = leBytes 2 c.code := List.take_left' hb2
  have hdrop2 : (leBytes 2 c.code ++ (b ++ ([10] ++ Scp.SCP_END))).drop 2
      = b ++ ([10] ++ Scp.SCP_END) := List.drop_left' hb2
  have hrlen : (leBytes 2 c.code ++ (b ++ ([10] ++ Scp.SCP_END))).length
      = b.length + 14 := by
    simp [hb2, Scp.SCP_END]
    omega
  have hrestlen : (b ++ ([10] ++ Scp.SCP_END)).length = b.length + 12 := by
    simp [Scp.SCP_END]
  have hcode : leDecode (leBytes 2 c.code) = c.code :=
    leDecode_leBytes_of_lt (code_lt c)
  have htakebody :
      (b ++ ([10] ++ Scp.SCP_END)).take (b.length + 12 - Scp.SCP_HEADER.length)
        = b := by
    rw [scp_header_len]
    have h : b.length + 12 - 12 = b.length := by omega
    rw [h]
    exact List.take_left' rfl
  have hdropbody :
      (b ++ ([10] ++ Scp.SCP_END)).drop (b.length + 12 - Scp.SCP_HEADER.length)
        = [10] ++ Scp.SCP_END := by
    rw [scp_header_len]
    have h : b.length + 12 - 12 = b.length := by omega
    rw [h]
    exact List.drop_left' rfl
  rw [Scp.deserialize]
  rw [if_neg (not_not_intro hpre), if_neg (not_not_intro hsuf)]
  simp only [hdrop, hrlen, hrestlen, htake2, hdrop2, hcode, ofCode_code,
    htakebody, hdropbody]
  rw [if_neg (by omega : ¬ (b.length + 14 < 2)),
      if_neg (by rw [scp_header_len]; omega
        : ¬ (b.length + 12 < Scp.SCP_HEADER.length))]
  rw [if_neg (fun h => h (rfl : ([10] ++ Scp.SCP_END).drop 1 = Scp.SCP_END))]
  rw [if_neg (fun h => hbody h.1 h.2)]

/-- C1 witness: the round trip evaluated at `KeyShare` with body `[72]`. -/
theorem C1_codec_roundtrip_witness :
    (∀ x ∈ ([72] : List Nat), x < 256) ∧
    (Scp.SCPCommand.KeyShare.requiresBody = true → ([72] : List Nat) ≠ []) ∧
    Scp.deserialize (Scp.asBytes .KeyShare [72])
      = some (Except.ok ⟨.KeyShare, [72]⟩) :=
  ⟨by decide, by decide,
   C1_codec_roundtrip .KeyShare [72] (by decide) (by decide)⟩

/-- C2. Reassembler happy path: feeding the fragments of the data blocks
`ds` with identifiers 1..k, each block of 1 to 504 bytes, total length at
most 65535, and no constructed fragment equal to the terminator, the
builder yields nothing before the terminator, and after the terminator it
yields exactly the concatenation of the blocks. -/
theorem C2_reassembler_happy_path (ds : List (List Nat)) (hne : ds ≠ [])
    (hlens : ∀ d ∈ ds, 1 ≤ d.length ∧ d.length ≤ 504)
    (hsum : Nal.sumLen ds ≤ 65535)
    (hnoterm : ∀ f ∈ Nal.mkFragments ds 1, f ≠ Nal.FRAME_END) :
    (∀ j, j ≤ ds.length →
      ∃ b, Nal.NalBuilder.init.addDataList ((Nal.mkFragments ds 1).take j)
          = some b ∧ b.getNalUnit = none) ∧
    (∃ b, Nal.NalBuilder.init.addDataList
        (Nal.mkFragments ds 1 ++ [Nal.FRAME_END]) = some b ∧
      b.getNalUnit = some ds.flatten) := by
  have h1 : ∀ d ∈ ds, 1 ≤ d.length := fun d hd => (hlens d hd).1
  have hinitbuf : Nal.NalBuilder.init.nalUnitBuffer.length = 65535 := by
    rw [show Nal.NalBuilder.init.nalUnitBuffer = List.replicate 65535 0 from rfl]
    exact List.length_replicate 65535 0
  have hds_le : ds.length ≤ 65535 :=
    le_trans (length_le_sumLen ds h1) hsum
  constructor
  · intro j hj
    have hlem := addDataList_mkFragments (ds.take j) Nal.NalBuilder.init
      rfl rfl
      (fun x hx => h1 x (List.mem_of_mem_take hx))
      (by
        have := List.length_take_le j ds
        show 0 + (ds.take j).length < 16777216
        omega)
      (by
        have := sumLen_take_le ds j
        show 0 + Nal.sumLen (ds.take j) ≤ 65535
        omega)
      hinitbuf
    obtain ⟨b, hrun, hf1, _, _, _, _, _, _⟩ := hlem
    refine ⟨b, ?_, ?_⟩
    · rw [mkFragments_take]
      exact hrun
    · simp [Nal.NalBuilder.getNalUnit, hf1]
  · have hlem := addDataList_mkFragments ds Nal.NalBuilder.init
      rfl rfl h1
      (by show 0 + ds.length < 16777216; omega)
      (by show 0 + Nal.sumLen ds ≤ 65535; omega)
      hinitbuf
    obtain ⟨b, hrun, hf1, hf2, _, hei, hli, _, htk⟩ := hlem
    have hrun1 : Nal.NalBuilder.init.addDataList (Nal.mkFragments ds 1)
        = some b := hrun
    refine ⟨{ b with finished := true }, ?_, ?_⟩
    · rw [addDataList_append_single, hrun1]
      exact addData_FRAME_END b
    · rw [Nal.NalBuilder.getNalUnit]
      rw [if_pos (by simp [hf2])]
      simp only []
      have hein : b.endIdx = b.lastIdx := by
        have he0 : Nal.NalBuilder.init.endIdx = 0 := rfl
        have hl0 : Nal.NalBuilder.init.lastIdx = 0 := rfl
        omega
      rw [show ({ b with finished := true } : Nal.NalBuilder).endIdx
            = b.endIdx from rfl]
      rw [show ({ b with finished := true } : Nal.NalBuilder).nalUnitBuffer
            = b.nalUnitBuffer from rfl]
      rw [hein, htk]
      have hz : Nal.NalBuilder.init.nalUnitBuffer.take
          Nal.NalBuilder.init.lastIdx = [] := by
        rfl
      rw [hz]
      simp

/-- C2 witness: the happy path evaluated at the blocks `[[1], [2]]`. -/
theorem C2_reassembler_happy_path_witness :
    ([[1], [2]] : List (List Nat)) ≠ [] ∧
    (∀ d ∈ ([[1], [2]] : List (List Nat)), 1 ≤ d.length ∧ d.length ≤ 504) ∧
    Nal.sumLen [[1], [2]] ≤ 65535 ∧
    (∀ f ∈ Nal.mkFragments [[1], [2]] 1, f ≠ Nal.FRAME_END) ∧
    ((∀ j, j ≤ ([[1], [2]] : List (List Nat)).length →
        ∃ b, Nal.NalBuilder.init.addDataList
            ((Nal.mkFragments [[1], [2]] 1).take j)
          = some b ∧ b.getNalUnit = none) ∧
      (∃ b, Nal.NalBuilder.init.addDataList
          (Nal.mkFragments [[1], [2]] 1 ++ [Nal.FRAME_END]) = some b ∧
        b.getNalUnit = some ([[1], [2]] : List (List Nat)).flatten)) :=
  ⟨by decide, by decide, by decide, by decide,
   C2_reassembler_happy_path [[1], [2]] (by decide) (by decide) (by decide)
     (by decide)⟩

/-- C3. On a received payload that fails to parse, `handle_connection`
calls `.unwrap()` on the parse result and panics (modelled by `none`),
instead of silently dropping the message: the bytes `[0, 1, 2]` have no
SCP header, so parsing fails with `BadStructure`, and the worker does not
return normally. -/
theorem C3_parse_error_panics :
    Listener.parse [0, 1, 2] = Except.error Scp.SCPParseError.BadStructure ∧
    Listener.handleConnection (fun _ => some [1]) (fun _ => none)
      Listener.ScpListener.init (some ([0, 1, 2], ⟨7, 9⟩)) = none := by
  constructor
  · rfl
  · rfl

/-- C4 counterexample: in state `Connected`, receiving `End` leaves the
state `Connected`; it is not reset to `Free` as the claim states. -/
theorem C4_end_state_counterexample :
    ((Listener.handleScpMessage (fun _ => some [1]) (fun _ => none)
        { state := .Connected, communicatingWith := some ⟨7, 9⟩,
          gotPreferences := some Listener.Preferences.default,
          preferences := Listener.Preferences.default }
        .End [] ⟨7, 9⟩).map (fun p => p.1.state))
      = some Listener.ConnectionState.Connected ∧
    Listener.ConnectionState.Connected ≠ Listener.ConnectionState.Free :=
  ⟨rfl, by decide⟩

/-- C4 (amended). In every connection state, receiving an `End` message
publishes a `ConnectionEnd` event and clears the peer record and the
obtained preferences, but leaves the connection state unchanged (the code
does not transition to `Free`). -/
theorem C4_end_message_amended
    (encodePrefs : Listener.Preferences → Option (List Nat))
    (decodePrefs : List Nat → Option Listener.Preferences)
    (l : Listener.ScpListener) (body : List Nat) (addrIn : SockAddr) :
    Listener.handleScpMessage encodePrefs decodePrefs l .End body addrIn =
      some ({ l with communicatingWith := none, gotPreferences := none },
            { event := some .ConnectionEnd, sent := [] }) := rfl

/-- C5. The liveness timeout never fires: the code computes
`last_packet.duration_since(now)`, which saturates to zero, so on a recv
timeout 6 seconds (and even 11 days) after the last datagram the
`connected` flag stays `true`, contradicting the claimed transition to
false within 6 seconds. -/
theorem C5_liveness_timeout_never_fires :
    Incoming.recvTimeoutStep true 0 6000 = true ∧
    Incoming.recvTimeoutStep true 0 1000000000 = true :=
  ⟨rfl, rfl⟩

/-- C6. Reassembler gap: on a fresh builder, fragments with identifiers
1 and 3 followed by the terminator set `failed`, and `get_nal_unit`
returns nothing. -/
theorem C6_reassembler_gap (d1 d3 : List Nat)
    (h1a : 1 ≤ d1.length) (h1b : d1.length ≤ 504)
    (h3a : 1 ≤ d3.length) (h3b : d3.length ≤ 504) :
    ∃ b, Nal.NalBuilder.init.addDataList
        [Nal.mkFragment d1 1, Nal.mkFragment d3 3, Nal.FRAME_END] = some b ∧
      b.failed = true ∧ b.getNalUnit = none := by
  have hinitbuf : Nal.NalBuilder.init.nalUnitBuffer.length = 65535 := by
    rw [show Nal.NalBuilder.init.nalUnitBuffer = List.replicate 65535 0 from rfl]
    exact List.length_replicate 65535 0
  obtain ⟨r1, hrun1, hfin1, hfail1, hlp1, _, _, _, _⟩ :=
    addDataList_mkFragments [d1] Nal.NalBuilder.init rfl rfl
      (by intro x hx; simp at hx; subst hx; exact h1a)
      (by show 0 + [d1].length < 16777216; simp)
      (by show 0 + Nal.sumLen [d1] ≤ 65535
          simp [Nal.sumLen]
          omega)
      hinitbuf
  have hrun1' : Nal.NalBuilder.init.addDataList [Nal.mkFragment d1 1]
      = some r1 := hrun1
  have hlp1' : r1.lastPacket = 1 := by
    rw [hlp1]
    rfl
  have hgap3 : r1.addData (Nal.mkFragment d3 3)
      = some { r1 with failed := true } :=
    addData_gap r1 d3 3 hfin1 hfail1 (by omega) (by norm_num) h3a
  refine ⟨{ { r1 with failed := true } with finished := true }, ?_, rfl, ?_⟩
  · rw [show ([Nal.mkFragment d1 1, Nal.mkFragment d3 3, Nal.FRAME_END]
          : List (List Nat))
        = [Nal.mkFragment d1 1] ++ ([Nal.mkFragment d3 3] ++ [Nal.FRAME_END])
        from rfl]
    rw [addDataList_append, hrun1']
    show (r1.addDataList ([Nal.mkFragment d3 3] ++ [Nal.FRAME_END])) = _
    rw [addDataList_append, addDataList_singleton, hgap3]
    show ({ r1 with failed := true } : Nal.NalBuilder).addDataList
        [Nal.FRAME_END] = _
    rw [addDataList_singleton]
    exact addData_FRAME_END _
  · simp [Nal.NalBuilder.getNalUnit]

/-- C6 witness: the gap scenario evaluated at the blocks `[5]` and `[6]`. -/
theorem C6_reassembler_gap_witness :
    1 ≤ ([5] : List Nat).length ∧ ([5] : List Nat).length ≤ 504 ∧
    1 ≤ ([6] : List Nat).length ∧ ([6] : List Nat).length ≤ 504 ∧
    (∃ b, Nal.NalBuilder.init.addDataList
        [Nal.mkFragment [5] 1, Nal.mkFragment [6] 3, Nal.FRAME_END] = some b ∧
      b.failed = true ∧ b.getNalUnit = none) :=
  ⟨by decide, by decide, by decide, by decide,
   C6_reassembler_gap [5] [6] (by decide) (by decide) (by decide) (by decide)⟩

/-- C7 counterexample: `serialize(SimpleMessage, b"Hello")` does not carry
the command bytes `0x07 0x00` claimed from the spec table: in the source
enum, `SimpleMessage` has discriminant 5, not 7. -/
theorem C7_simple_message_bytes_counterexample :
    Scp.asBytes .SimpleMessage [72, 101, 108, 108, 111]
      ≠ Scp.SCP_HEADER ++ [7, 0] ++ [72, 101, 108, 108, 111] ++ [10]
          ++ Scp.SCP_END := by
  decide

/-- C7 (amended). `serialize(SimpleMessage, b"Hello")` is exactly the
header, the little-endian command bytes `0x05 0x00` (the source command
table is `Start=0, OwnKeyRequired=1, ReqGenerateKey=2, AckGenerateKey=3,
KeyShare=4, SimpleMessage=5, VideoStreamConnect=6, AudioStreamConnect=7,
VideoStreamStop=8, AudioStreamStop=9, End=10`), the body `"Hello"`, a
newline, and the trailer; parsing those bytes yields body `"Hello"`. -/
theorem C7_simple_message_bytes_amended :
    Scp.asBytes .SimpleMessage [72, 101, 108, 108, 111]
      = Scp.SCP_HEADER ++ [5, 0] ++ [72, 101, 108, 108, 111] ++ [10]
          ++ Scp.SCP_END ∧
    Scp.deserialize (Scp.asBytes .SimpleMessage [72, 101, 108, 108, 111])
      = some (Except.ok ⟨.SimpleMessage, [72, 101, 108, 108, 111]⟩) := by
  constructor
  · decide
  · rfl

/-- C8. On an input with a valid header and trailer whose two command
bytes form the little-endian index 65535, outside the range of defined
commands, `deserialize` reaches the unchecked `transmute` and does not
return a `BadStructure` error (the model yields `none`, the marker for
undefined behaviour). -/
theorem C8_out_of_range_command_ub :
    Scp.deserialize (Scp.SCP_HEADER ++ [255, 255] ++ [10] ++ Scp.SCP_END)
      = none ∧
    leDecode [255, 255] = 65535 := by
  constructor
  · rfl
  · decide

/-- C9 counterexample: when every poll in the 5-second window sees an
empty event slot, `request_chat` returns `Refused`, not the claimed
`NotResponding`. -/
theorem C9_timeout_refused_counterexample :
    (Client.requestChat ⟨1, 2⟩ (List.replicate 50 none)).2
        = Except.error Client.ScpConnectionError.Refused ∧
    (Except.error Client.ScpConnectionError.Refused
        : Except Client.ScpConnectionError Client.SessionConfig)
      ≠ Except.error Client.ScpConnectionError.NotResponding :=
  ⟨requestChatLoop_replicate_none 50,
   fun hcon => by injection hcon with hv; exact absurd hv (by decide)⟩

/-- C9 (amended). `request_chat` publishes an `AttemptConnection` action
and waits on the event slot; a `ConnectionEstablished` event yields the
config, `ConnectionFailed e` yields `e`, `ConnectionEnd` yields
`NotResponding`, and if no event arrives within the timeout the call
returns `Refused` (not `NotResponding`). -/
theorem C9_request_chat_amended (dest : SockAddr) (n : Nat)
    (e : Client.ConnectionEvent)
    (rest polls : List (Option Client.ConnectionEvent)) :
    (Client.requestChat dest polls).1
        = Client.ConnectionAction.AttemptConnection ⟨dest, none⟩ ∧
    (Client.requestChat dest (List.replicate n none)).2
        = Except.error Client.ScpConnectionError.Refused ∧
    (Client.requestChat dest (List.replicate n none ++ some e :: rest)).2
        = match e with
          | .ConnectionEstablished s => Except.ok s
          | .ConnectionFailed err => Except.error err
          | .ConnectionEnd =>
            Except.error Client.ScpConnectionError.NotResponding
          | .ConnectionIncoming _ =>
            Except.error Client.ScpConnectionError.Refused :=
  ⟨rfl, requestChatLoop_replicate_none n, requestChatLoop_first_event n e rest⟩

/-- C10 counterexample: `add_data` is not total: a single fragment
carrying 65,536 data bytes (with identifier 1) overruns the 65,535-byte
buffer, and the copy loop panics on an out-of-bounds write (`none`). -/
theorem C10_add_data_total_counterexample :
    Nal.NalBuilder.init.addData (List.replicate 65536 0 ++ leBytes 4 1)
      = none := by
  have hlen : (List.replicate 65536 (0 : Nat) ++ leBytes 4 1).length
      = 65540 := by
    rw [List.length_append, List.length_replicate, leBytes_length]
  rw [Nal.NalBuilder.addData]
  rw [if_neg (by
    rintro ⟨-, hl⟩
    rw [hlen] at hl
    exact absurd hl (by norm_num))]
  have hdec : Nal.decodeFrame (List.replicate 65536 (0 : Nat) ++ leBytes 4 1)
      = some (List.replicate 65536 0, 1) := by
    rw [Nal.decodeFrame, if_pos (by rw [hlen]; norm_num)]
    rw [hlen]
    have h4 : 65540 - 4 = 65536 := by norm_num
    rw [h4]
    rw [List.take_left' (List.length_replicate 65536 0),
        List.drop_left' (List.length_replicate 65536 0)]
    rw [leDecode_leBytes_of_lt (by norm_num)]
  rw [hdec]
  have hnoreset : (Nal.NalBuilder.init.finished = true
      ∨ 1 ≤ Nal.NalBuilder.init.lastPacket) = False := by
    apply eq_false
    rintro (hc | hc)
    · exact nomatch hc
    · exact Nat.not_succ_le_zero 0 hc
  simp only [hnoreset, if_false]
  rw [if_neg (fun hcon => nomatch hcon : ¬ Nal.NalBuilder.init.failed = true)]
  norm_num [Nal.u32wrap, show Nal.NalBuilder.init.lastPacket = 0 from rfl,
    show Nal.NalBuilder.init.lastIdx = 0 from rfl, List.length_replicate]

/-- C10 (amended). `add_data` returns normally on every fragment sequence
whose accumulated data fits the 65,535-byte buffer; a fragment whose
trailing 4 bytes decode to identifier 0 does not panic either — the u32
subtraction wraps, so `missing_packets` becomes 2^32 - 1 and `failed` is
set. Sequences that overrun the buffer panic (see the counterexample). -/
theorem C10_add_data_total_amended (fs : List (List Nat))
    (h : Nal.sumDataLen fs ≤ 65535) :
    (∃ b, Nal.NalBuilder.init.addDataList fs = some b) ∧
    (Nal.NalBuilder.init.addData [0, 0, 0, 0, 0]).map (fun b => b.failed)
      = some true := by
  constructor
  · obtain ⟨b, hb⟩ := addDataList_no_panic fs Nal.NalBuilder.init
      (by show 0 + Nal.sumDataLen fs ≤ 65535; omega)
    exact ⟨b, hb⟩
  · rfl

/-- C10 witness: the amended totality evaluated at one 6-byte fragment. -/
theorem C10_add_data_total_amended_witness :
    Nal.sumDataLen [[1, 2, 3, 4, 5, 6]] ≤ 65535 ∧
    ((∃ b, Nal.NalBuilder.init.addDataList [[1, 2, 3, 4, 5, 6]] = some b) ∧
     (Nal.NalBuilder.init.addData [0, 0, 0, 0, 0]).map (fun b => b.failed)
        = some true) :=
  ⟨by decide, C10_add_data_total_amended [[1, 2, 3, 4, 5, 6]] (by decide)⟩

end EyeSpy
